import Mathlib

/-!
Shallow embedding of `src/lotto_mapper.py` (the "Lotto Mapper" Streamlit app).
The core logic embedded here:

* `get_v_from_description` (source lines 9-15): parse the leading decimal
  digit run of a design description as the base-set size `v`.
* `map_user_numbers` (lines 45-50): map 1-based block positions onto the
  user base numbers, using Python list-indexing semantics (negative
  indices address from the end; out-of-range raises `IndexError`, which the
  function turns into `None`).
* input parsing/validation (lines 81-111): comma-separated integer lists for
  the base and drawn numbers, with the drawn list required to hold exactly
  6 distinct values.
* block classification (lines 115-128): each stored block is either mapped
  (every position in `[1, v]`) or counted invalid.
* scoring (lines 139-147): per-block sorted set intersection with the drawn
  numbers, the threshold-filtered display list, and the hit histogram.
* prize arithmetic (lines 157-173): fixed prize table, jackpot, totals.

Python `int` values are modelled as `Int`; the histogram dictionary is
modelled as a total function `Nat → Nat` with default value 0 (matching
`match_counter.get(count, 0)`).
-/

namespace LottoMapper

/-- Value of a list of decimal digit characters, most significant first
(`int(...)` applied to a digit string). -/
def digitsToNat (l : List Char) : Nat :=
  l.foldl (fun acc c => 10 * acc + (c.toNat - 48)) 0

/-- Source lines 9-15: `re.match(r"(\d+)", description)` matches the leading
run of decimal digits; its integer value is returned, and a missing leading
digit raises `ValueError`, modelled as `none`. -/
def get_v_from_description (description : String) : Option Nat :=
  let ds := description.toList.takeWhile Char.isDigit
  if ds.isEmpty then none else some (digitsToNat ds)

/-- Python `str.strip()`: drop whitespace from both ends of a character
list. -/
def stripChars (l : List Char) : List Char :=
  ((l.dropWhile Char.isWhitespace).reverse.dropWhile Char.isWhitespace).reverse

/-- Python `str.split(sep)` for a one-character separator: split at every
occurrence, keeping empty pieces (so `"".split(",") == [""]`). -/
def splitOnChar (sep : Char) : List Char → List (List Char)
  | [] => [[]]
  | c :: rest =>
    let r := splitOnChar sep rest
    if c = sep then [] :: r
    else
      match r with
      | t :: ts => (c :: t) :: ts
      | [] => [[c]]

/-- Python `int(x)` on a string token: surrounding whitespace is ignored, an
optional sign precedes a non-empty digit run; anything else raises
`ValueError`, modelled as `none`. -/
def pyInt? (l : List Char) : Option Int :=
  match stripChars l with
  | '-' :: ds =>
    if ds ≠ [] ∧ ds.all Char.isDigit then some (-(digitsToNat ds : Int)) else none
  | '+' :: ds =>
    if ds ≠ [] ∧ ds.all Char.isDigit then some ((digitsToNat ds : Int)) else none
  | ds =>
    if ds ≠ [] ∧ ds.all Char.isDigit then some ((digitsToNat ds : Int)) else none

/-- `[int(x) for x in tokens]`: the first `ValueError` makes the whole
comprehension fail. -/
def parseTokens : List (List Char) → Option (List Int)
  | [] => some []
  | t :: ts =>
    match pyInt? t, parseTokens ts with
    | some x, some xs => some (x :: xs)
    | _, _ => none

/-- Source lines 82 and 105:
`[int(x) for x in input.strip().split(",") if x.strip()]`; a token that is
not an integer makes the whole parse fail (`ValueError` caught by the bare
`except`). -/
def parse_int_list (s : String) : Option (List Int) :=
  parseTokens (((splitOnChar ',' (stripChars s.toList))).filter
    (fun t => stripChars t ≠ []))

/-- Python list indexing `l[i]` for `i : Int`: a non-negative index reads
from the front, a negative index `i` with `-len ≤ i` reads entry `i + len`,
anything else raises `IndexError`, modelled as `none`. -/
def pyIndex (l : List Int) (i : Int) : Option Int :=
  if 0 ≤ i then l.get? i.toNat
  else if -(l.length : Int) ≤ i then l.get? (i + l.length).toNat
  else none

/-- Source lines 45-50: `[user_numbers[i - 1] for i in block]`, returning
`None` when any position raises `IndexError`. -/
def map_user_numbers (user_numbers : List Int) : List Int → Option (List Int)
  | [] => some []
  | i :: rest =>
    match pyIndex user_numbers (i - 1), map_user_numbers user_numbers rest with
    | some x, some xs => some (x :: xs)
    | _, _ => none

/-- Source line 119: `all(1 <= i <= v for i in blk)`. -/
def validP (v : Nat) (b : List Int) : Bool :=
  b.all (fun i => decide (1 ≤ i ∧ i ≤ (v : Int)))

/-- Source lines 115-128: each stored block either passes the range check and
is mapped (a truthy result is appended to `mapped_blocks`), or is appended to
`invalid_blocks`; both lists keep the order of the store. -/
def classify (user_numbers : List Int) : List (List Int) → List (List Int) × List (List Int)
  | [] => ([], [])
  | blk :: rest =>
    let r := classify user_numbers rest
    if validP user_numbers.length blk then
      match map_user_numbers user_numbers blk with
      | some mapped => if mapped.isEmpty then r else (mapped :: r.1, r.2)
      | none => r
    else (r.1, blk :: r.2)

/-- Source line 143: `sorted(set(block) & set(draw_numbers))`: the distinct
values common to the block and the draw, in ascending order. -/
def hits (block draw : List Int) : List Int :=
  List.insertionSort (· ≤ ·) ((block.filter (fun x => decide (x ∈ draw))).dedup)

/-- Source line 144: `count = len(hits)`. -/
def hitCount (block draw : List Int) : Nat :=
  (hits block draw).length

/-- Source lines 139-147, processing the blocks from index `i` on: builds the
threshold-filtered display list `hit_blocks` (1-based index, mapped block,
hit list) and the hit histogram `match_counter`, which counts every block
regardless of the threshold. -/
def score_aux (draw : List Int) (min_hits : Nat) :
    List (List Int) → Nat → List (Nat × List Int × List Int) × (Nat → Nat)
  | [], _ => ([], fun _ => 0)
  | block :: rest, i =>
    let hs := hits block draw
    let count := hs.length
    let r := score_aux draw min_hits rest (i + 1)
    (if min_hits ≤ count then (i, block, hs) :: r.1 else r.1,
     fun c => if c = count then r.2 c + 1 else r.2 c)

/-- Source lines 139-147 with enumeration starting at 1. -/
def score_loop (mapped_blocks : List (List Int)) (draw : List Int) (min_hits : Nat) :
    List (Nat × List Int × List Int) × (Nat → Nat) :=
  score_aux draw min_hits mapped_blocks 1

/-- Source lines 157-161: `prize_table = {5: 24000, 4: 800, 3: 20}`. -/
def prize_table : List (Nat × Nat) := [(5, 24000), (4, 800), (3, 20)]

/-- Source line 166:
`sum(match_counter.get(k, 0) * prize_table[k] for k in prize_table)`. -/
def total_fixed (match_counter : Nat → Nat) : Int :=
  (prize_table.map (fun kv => (match_counter kv.1 : Int) * (kv.2 : Int))).sum

/-- Source lines 165, 167: `total_jackpot = six_hit_count * jackpot_amount`. -/
def total_jackpot (match_counter : Nat → Nat) (jackpot_amount : Int) : Int :=
  (match_counter 6 : Int) * jackpot_amount

/-- Source line 168: `grand_total = total_fixed + total_jackpot`. -/
def grand_total (match_counter : Nat → Nat) (jackpot_amount : Int) : Int :=
  total_fixed match_counter + total_jackpot match_counter jackpot_amount

/-- Source line 170: `ticket_price = 20` (a constant in the source). -/
def ticket_price : Int := 20

/-- Source lines 171-172: `total_cost = total_blocks * ticket_price`. -/
def total_cost (total_blocks : Nat) : Int :=
  (total_blocks : Int) * ticket_price

/-- Source line 173: `net_profit = grand_total - total_cost`. -/
def net_profit (match_counter : Nat → Nat) (jackpot_amount : Int) (total_blocks : Nat) : Int :=
  grand_total match_counter jackpot_amount - total_cost total_blocks

/-- The structured result of one full evaluation pass (source lines 115-173). -/
structure Output where
  mapped_blocks : List (List Int)
  invalid_blocks : List (List Int)
  hit_blocks : List (Nat × List Int × List Int)
  match_counter : Nat → Nat
  total_fixed : Int
  total_jackpot : Int
  grand_total : Int
  total_cost : Int
  net_profit : Int

/-- Source lines 81-173: the whole evaluation pass in source order. The base
input is parsed and must hold at least 6 numbers (lines 81-89); the drawn
input is parsed and must hold exactly 6 distinct numbers (lines 104-111,
`len(draw_numbers) != 6 or len(set(draw_numbers)) != 6`); only then are the
blocks classified, scored and priced. `st.error` + `st.stop` is modelled as
`Except.error`. -/
def evaluate (user_input draw_input : String) (blocks : List (List Int))
    (min_hits : Nat) (jackpot_amount : Int) : Except String Output :=
  match parse_int_list user_input with
  | none => .error "Invalid input format."
  | some user_numbers =>
    if user_numbers.length < 6 then .error "You must enter at least 6 numbers."
    else
      match parse_int_list draw_input with
      | none => .error "Invalid drawn format."
      | some draw_numbers =>
        if draw_numbers.length ≠ 6 ∨ draw_numbers.dedup.length ≠ 6 then
          .error "Must be exactly 6 unique drawn numbers."
        else
          let c := classify user_numbers blocks
          let s := score_loop c.1 draw_numbers min_hits
          .ok
            { mapped_blocks := c.1
              invalid_blocks := c.2
              hit_blocks := s.1
              match_counter := s.2
              total_fixed := total_fixed s.2
              total_jackpot := total_jackpot s.2 jackpot_amount
              grand_total := grand_total s.2 jackpot_amount
              total_cost := total_cost c.1.length
              net_profit := net_profit s.2 jackpot_amount c.1.length }

/-- The Scenario 3 histogram of the spec: two blocks with 3 hits, one block
with 4 hits. -/
def scenario3_histogram : Nat → Nat :=
  fun k => if k = 3 then 2 else if k = 4 then 1 else 0

/-! ### Helper lemmas -/

theorem pyIndex_pos (l : List Int) (p : Int) (h1 : 1 ≤ p) (h2 : p ≤ (l.length : Int)) :
    pyIndex l (p - 1) = some (l.getD (p - 1).toNat 0) := by
  have h0 : (0 : Int) ≤ p - 1 := by omega
  have hlt : (p - 1).toNat < l.length := by omega
  simp only [pyIndex, if_pos h0]
  rw [List.getD_eq_get?]
  cases hg : l.get? (p - 1).toNat with
  | none => rw [List.get?_eq_none] at hg; omega
  | some x => simp

theorem pyIndex_eq_none_iff (l : List Int) (p : Int) :
    pyIndex l (p - 1) = none ↔ (l.length : Int) < p ∨ p ≤ -(l.length : Int) := by
  unfold pyIndex
  split_ifs with h1 h2
  · rw [List.get?_eq_none]
    omega
  · rw [List.get?_eq_none]
    omega
  · exact iff_of_true rfl (by omega)

theorem map_user_numbers_eq_none_iff (u blk : List Int) :
    map_user_numbers u blk = none ↔
      ∃ p ∈ blk, (u.length : Int) < p ∨ p ≤ -(u.length : Int) := by
  induction blk with
  | nil => simp [map_user_numbers]
  | cons i rest ih =>
    rw [map_user_numbers]
    cases hpi : pyIndex u (i - 1) with
    | none =>
      refine iff_of_true rfl ⟨i, by simp, (pyIndex_eq_none_iff u i).mp hpi⟩
    | some x =>
      cases hrest : map_user_numbers u rest with
      | none =>
        obtain ⟨p, hp, hcond⟩ := ih.mp hrest
        exact iff_of_true rfl ⟨p, by simp [hp], hcond⟩
      | some xs =>
        refine iff_of_false (by simp) ?_
        rintro ⟨p, hp, hcond⟩
        rcases List.mem_cons.mp hp with rfl | hp'
        · rw [(pyIndex_eq_none_iff u p).mpr hcond] at hpi
          exact Option.noConfusion hpi
        · rw [ih.mpr ⟨p, hp', hcond⟩] at hrest
          exact Option.noConfusion hrest

theorem map_user_numbers_of_valid (u blk : List Int)
    (h : ∀ p ∈ blk, 1 ≤ p ∧ p ≤ (u.length : Int)) :
    map_user_numbers u blk = some (blk.map (fun p => u.getD (p - 1).toNat 0)) := by
  induction blk with
  | nil => rfl
  | cons i rest ih =>
    have hi := h i (by simp)
    rw [map_user_numbers, pyIndex_pos u i hi.1 hi.2,
      ih (fun p hp => h p (by simp [hp]))]
    simp

theorem validP_iff (v : Nat) (b : List Int) :
    validP v b = true ↔ ∀ p ∈ b, 1 ≤ p ∧ p ≤ (v : Int) := by
  simp [validP]

theorem classify_eq (u : List Int) (blocks : List (List Int))
    (hne : ∀ b ∈ blocks, b ≠ []) :
    classify u blocks =
      ((blocks.filter (validP u.length)).map
          (fun b => b.map (fun p => u.getD (p - 1).toNat 0)),
        blocks.filter (fun b => !validP u.length b)) := by
  induction blocks with
  | nil => rfl
  | cons blk rest ih =>
    have hner : ∀ b ∈ rest, b ≠ [] := fun b hb => hne b (by simp [hb])
    rw [classify, ih hner]
    by_cases hv : validP u.length blk
    · have hmap := map_user_numbers_of_valid u blk ((validP_iff _ _).mp hv)
      rw [if_pos hv, hmap]
      have hblk : blk ≠ [] := hne blk (by simp)
      have : (blk.map (fun p => u.getD (p - 1).toNat 0)).isEmpty = false := by
        cases blk with
        | nil => exact absurd rfl hblk
        | cons a t => simp [List.isEmpty]
      simp [List.filter_cons, hv, this]
      exact hblk
    · rw [if_neg hv]
      simp [List.filter_cons, hv]

theorem hits_toFinset_eq (block draw : List Int) :
    ((block.filter (fun x => decide (x ∈ draw))).dedup).toFinset
      = block.toFinset ∩ draw.toFinset := by
  ext a
  simp [List.mem_dedup, List.mem_filter]

theorem length_hits (block draw : List Int) :
    (hits block draw).length = (block.toFinset ∩ draw.toFinset).card := by
  unfold hits
  rw [(List.perm_insertionSort _ _).length_eq]
  rw [← hits_toFinset_eq block draw]
  rw [List.toFinset_card_of_nodup (List.nodup_dedup _)]

theorem mem_hits (block draw : List Int) (a : Int) :
    a ∈ hits block draw ↔ a ∈ block ∧ a ∈ draw := by
  unfold hits
  rw [(List.perm_insertionSort _ _).mem_iff]
  simp [List.mem_dedup, List.mem_filter]

theorem sorted_hits (block draw : List Int) :
    List.Sorted (· ≤ ·) (hits block draw) :=
  List.sorted_insertionSort _ _

theorem nodup_hits (block draw : List Int) :
    (hits block draw).Nodup :=
  ((List.perm_insertionSort _ _).nodup_iff).mpr (List.nodup_dedup _)

theorem hits_cons_of_mem (block draw : List Int) (x : Int) (hx : x ∈ block) :
    hits (x :: block) draw = hits block draw := by
  unfold hits
  rw [List.filter_cons]
  split_ifs with hpx
  · rw [List.dedup_cons_of_mem]
    rw [List.mem_filter]
    exact ⟨hx, hpx⟩
  · rfl

theorem hitCount_le_draw_length (block draw : List Int) :
    hitCount block draw ≤ draw.length := by
  unfold hitCount
  rw [length_hits]
  exact le_trans (Finset.card_le_card Finset.inter_subset_right)
    draw.toFinset_card_le

theorem score_aux_snd_apply (draw : List Int) (m : Nat) (l : List (List Int))
    (i : Nat) (c : Nat) :
    (score_aux draw m l i).2 c = l.countP (fun b => decide (hitCount b draw = c)) := by
  induction l generalizing i with
  | nil => simp [score_aux]
  | cons b rest ih =>
    rw [score_aux]
    simp only [List.countP_cons, ih (i + 1)]
    by_cases hc : c = (hits b draw).length
    · rw [if_pos hc,
        if_pos (show decide (hitCount b draw = c) = true by
          simp only [decide_eq_true_eq, hitCount]; exact hc.symm)]
    · rw [if_neg hc,
        if_neg (show ¬decide (hitCount b draw = c) = true by
          simp only [decide_eq_true_eq, hitCount]; exact fun h => hc h.symm)]
      simp

theorem sum_countP_hitCount (draw : List Int) (h6 : draw.length = 6)
    (l : List (List Int)) :
    ∑ k ∈ Finset.range 7, l.countP (fun b => decide (hitCount b draw = k))
      = l.length := by
  induction l with
  | nil => simp
  | cons b rest ih =>
    have hb : hitCount b draw ∈ Finset.range 7 := by
      rw [Finset.mem_range]
      have := hitCount_le_draw_length b draw
      omega
    simp only [List.countP_cons]
    rw [Finset.sum_add_distrib, ih]
    have : (∑ k ∈ Finset.range 7,
        if decide (hitCount b draw = k) = true then 1 else 0) = 1 := by
      simp only [decide_eq_true_eq]
      rw [Finset.sum_ite_eq, if_pos hb]
    rw [this]
    simp

theorem pyIndex_neg (u : List Int) (p : Int) (h1 : 1 - (u.length : Int) ≤ p)
    (h2 : p ≤ 0) :
    pyIndex u (p - 1) = some (u.getD (p - 1 + u.length).toNat 0) := by
  have hn0 : ¬(0 : Int) ≤ p - 1 := by omega
  have hge : -(u.length : Int) ≤ p - 1 := by omega
  have hlt : (p - 1 + u.length).toNat < u.length := by omega
  simp only [pyIndex, if_neg hn0, if_pos hge]
  rw [List.getD_eq_get?]
  cases hg : u.get? (p - 1 + u.length).toNat with
  | none => rw [List.get?_eq_none] at hg; omega
  | some x => simp

theorem length_filter_partition {α : Type} (p : α → Bool) (l : List α) :
    (l.filter p).length + (l.filter (fun a => !p a)).length = l.length := by
  induction l with
  | nil => rfl
  | cons a t ih =>
    cases hpa : p a <;> simp [List.filter_cons, hpa, ← ih] <;> omega

theorem dedup_length_eq_iff (d : List Int) :
    d.dedup.length = d.length ↔ d.Nodup := by
  constructor
  · intro h
    have he : d.dedup = d := (List.dedup_sublist d).eq_of_length h
    rw [← he]
    exact d.nodup_dedup
  · intro h
    rw [h.dedup]

/-! ### The claims -/

/-- Claim C1 (threshold independence of prizing): for a fixed list of mapped
blocks, a drawn set of 6 distinct integers and a fixed jackpot amount, any
two threshold values in `[0, 6]` give the same `total_fixed`,
`total_jackpot`, `grand_total` and `net_profit`; the threshold never
changes the histogram used for prizing. -/
theorem threshold_independence_of_prizing (mapped_blocks : List (List Int))
    (draw : List Int) (jackpot : Int) (m1 m2 : Nat)
    (hm1 : m1 ≤ 6) (hm2 : m2 ≤ 6) (hlen : draw.length = 6) (hnd : draw.Nodup) :
    total_fixed (score_loop mapped_blocks draw m1).2
        = total_fixed (score_loop mapped_blocks draw m2).2
    ∧ total_jackpot (score_loop mapped_blocks draw m1).2 jackpot
        = total_jackpot (score_loop mapped_blocks draw m2).2 jackpot
    ∧ grand_total (score_loop mapped_blocks draw m1).2 jackpot
        = grand_total (score_loop mapped_blocks draw m2).2 jackpot
    ∧ net_profit (score_loop mapped_blocks draw m1).2 jackpot mapped_blocks.length
        = net_profit (score_loop mapped_blocks draw m2).2 jackpot mapped_blocks.length := by
  have hhist : (score_loop mapped_blocks draw m1).2
      = (score_loop mapped_blocks draw m2).2 :=
    funext fun c => by
      rw [score_loop, score_loop, score_aux_snd_apply, score_aux_snd_apply]
  rw [hhist]
  exact ⟨rfl, rfl, rfl, rfl⟩

theorem threshold_independence_witness :
    total_fixed (score_loop [[1,2,3,4,5,6]] [1,2,3,4,5,6] 0).2
        = total_fixed (score_loop [[1,2,3,4,5,6]] [1,2,3,4,5,6] 6).2
    ∧ total_jackpot (score_loop [[1,2,3,4,5,6]] [1,2,3,4,5,6] 0).2 30000000
        = total_jackpot (score_loop [[1,2,3,4,5,6]] [1,2,3,4,5,6] 6).2 30000000
    ∧ grand_total (score_loop [[1,2,3,4,5,6]] [1,2,3,4,5,6] 0).2 30000000
        = grand_total (score_loop [[1,2,3,4,5,6]] [1,2,3,4,5,6] 6).2 30000000
    ∧ net_profit (score_loop [[1,2,3,4,5,6]] [1,2,3,4,5,6] 0).2 30000000
          [[1,2,3,4,5,6]].length
        = net_profit (score_loop [[1,2,3,4,5,6]] [1,2,3,4,5,6] 6).2 30000000
          [[1,2,3,4,5,6]].length :=
  threshold_independence_of_prizing [[1,2,3,4,5,6]] [1,2,3,4,5,6] 30000000 0 6
    (by decide) (by decide) (by decide) (by decide)

/-- Claim C2 (histogram totality): for every list of mapped blocks, every
drawn list of 6 numbers and every threshold, the counts in the hit
histogram built by the scoring loop sum to the number of mapped blocks
(every hit count is at most 6, so summing the histogram over `0..6` sums
all of it). -/
theorem histogram_totality (mapped_blocks : List (List Int)) (draw : List Int)
    (min_hits : Nat) (h6 : draw.length = 6) :
    ∑ k ∈ Finset.range 7, (score_loop mapped_blocks draw min_hits).2 k
      = mapped_blocks.length := by
  have h : ∀ k, (score_loop mapped_blocks draw min_hits).2 k
      = mapped_blocks.countP (fun b => decide (hitCount b draw = k)) := fun k => by
    rw [score_loop, score_aux_snd_apply]
  simp only [h]
  exact sum_countP_hitCount draw h6 mapped_blocks

theorem histogram_totality_witness :
    ∑ k ∈ Finset.range 7,
        (score_loop [[1,2,3,4,5,6], [7,8,9,10,11,12]] [1,2,3,4,5,6] 3).2 k = 2 := by
  have h := histogram_totality [[1,2,3,4,5,6], [7,8,9,10,11,12]] [1,2,3,4,5,6] 3
    (by decide)
  simpa using h

/-- Claim C3 (mapping bounds and order preservation): when every position of
a block lies in `[1, v]`, the mapping returns exactly
`[base_numbers[p-1] for p in block]`, in block order; a block with a
position below 1 or above `v` is classified invalid as a whole: it lands
in the invalid list and the mapped output is empty. -/
theorem mapping_bounds_and_order (base blk : List Int) :
    ((∀ p ∈ blk, 1 ≤ p ∧ p ≤ (base.length : Int)) →
      map_user_numbers base blk
        = some (blk.map (fun p => base.getD (p - 1).toNat 0)))
    ∧ ((∃ p ∈ blk, p < 1 ∨ (base.length : Int) < p) →
      classify base [blk] = ([], [blk])) := by
  constructor
  · exact map_user_numbers_of_valid base blk
  · rintro ⟨p, hp, hcond⟩
    have hv : ¬validP base.length blk = true := by
      rw [validP_iff]
      intro hall
      rcases hall p hp with ⟨h1, h2⟩
      omega
    simp [classify, hv]

theorem mapping_bounds_witness :
    map_user_numbers [10, 20, 30] [1, 3] = some [10, 30]
    ∧ classify [10, 20, 30, 40, 50, 60, 70] [[8, 1, 2, 3, 4, 5]]
        = ([], [[8, 1, 2, 3, 4, 5]]) :=
  ⟨((mapping_bounds_and_order [10, 20, 30] [1, 3]).1 (by decide)).trans (by decide),
   (mapping_bounds_and_order [10, 20, 30, 40, 50, 60, 70] [8, 1, 2, 3, 4, 5]).2
     ⟨8, by decide, by decide⟩⟩

/-- Claim C4 (intersection correctness): the hit list of a block is the
sorted, duplicate-free list of the values common to the block and the
draw, its length is the cardinality of the set intersection, and a
duplicated value inside the block changes neither the hit list nor the
hit count. -/
theorem intersection_correctness (block draw : List Int) :
    hitCount block draw = (block.toFinset ∩ draw.toFinset).card
    ∧ List.Sorted (· ≤ ·) (hits block draw)
    ∧ (hits block draw).Nodup
    ∧ (∀ a, a ∈ hits block draw ↔ a ∈ block ∧ a ∈ draw)
    ∧ (∀ x ∈ block, hits (x :: block) draw = hits block draw
        ∧ hitCount (x :: block) draw = hitCount block draw) :=
  ⟨length_hits block draw, sorted_hits block draw, nodup_hits block draw,
   mem_hits block draw, fun x hx =>
     ⟨hits_cons_of_mem block draw x hx, by
       rw [hitCount, hitCount, hits_cons_of_mem block draw x hx]⟩⟩

theorem intersection_correctness_witness :
    hits (1 :: [1, 2]) [2, 3, 4, 5, 6, 7] = hits [1, 2] [2, 3, 4, 5, 6, 7]
    ∧ hitCount (1 :: [1, 2]) [2, 3, 4, 5, 6, 7] = hitCount [1, 2] [2, 3, 4, 5, 6, 7] :=
  (intersection_correctness [1, 2] [2, 3, 4, 5, 6, 7]).2.2.2.2 1 (by decide)

/-- Claim C5 (prize arithmetic): `total_fixed` is the prize-table weighted
sum of the histogram, `total_jackpot` is the 6-hit count times the
jackpot amount, `grand_total`, `total_cost` and `net_profit` follow the
source formulas with the constant ticket price 20, and the Scenario 3
instance (histogram with two 3-hit and one 4-hit blocks, jackpot
30000000, 10 blocks) yields 840, 0, 840, 200 and 640. -/
theorem prize_arithmetic :
    (∀ mc : Nat → Nat, total_fixed mc
        = (mc 5 : Int) * 24000 + (mc 4 : Int) * 800 + (mc 3 : Int) * 20)
    ∧ (∀ (mc : Nat → Nat) (j : Int), total_jackpot mc j = (mc 6 : Int) * j)
    ∧ (∀ (mc : Nat → Nat) (j : Int),
        grand_total mc j = total_fixed mc + total_jackpot mc j)
    ∧ (∀ tb : Nat, total_cost tb = (tb : Int) * 20)
    ∧ (∀ (mc : Nat → Nat) (j : Int) (tb : Nat),
        net_profit mc j tb = grand_total mc j - total_cost tb)
    ∧ total_fixed scenario3_histogram = 840
    ∧ total_jackpot scenario3_histogram 30000000 = 0
    ∧ grand_total scenario3_histogram 30000000 = 840
    ∧ total_cost 10 = 200
    ∧ net_profit scenario3_histogram 30000000 10 = 640 := by
  refine ⟨fun mc => ?_, fun mc j => rfl, fun mc j => rfl, fun tb => rfl,
    fun mc j tb => rfl, by decide, by decide, by decide, by decide, by decide⟩
  simp [total_fixed, prize_table]
  ring

/-- Claim C6, counterexample: the program accepts a negative jackpot amount
(the input field has no lower bound), and with one 6-hit block and
jackpot -1 the computed `total_jackpot` and `grand_total` are negative,
so the non-negativity claim fails for inputs the program accepts. -/
theorem negative_jackpot_counterexample :
    total_jackpot (score_loop [[1,2,3,4,5,6]] [1,2,3,4,5,6] 1).2 (-1) < 0
    ∧ grand_total (score_loop [[1,2,3,4,5,6]] [1,2,3,4,5,6] 1).2 (-1) < 0 := by
  decide

/-- Claim C6 (amended): for every histogram produced by the scorer and every
non-negative jackpot amount, `total_fixed`, `total_jackpot`,
`grand_total` and `total_cost` are non-negative; only `net_profit` may be
negative. -/
theorem prize_nonneg_for_nonneg_jackpot (mapped_blocks : List (List Int))
    (draw : List Int) (min_hits : Nat) (jackpot : Int) (hj : 0 ≤ jackpot)
    (total_blocks : Nat) :
    0 ≤ total_fixed (score_loop mapped_blocks draw min_hits).2
    ∧ 0 ≤ total_jackpot (score_loop mapped_blocks draw min_hits).2 jackpot
    ∧ 0 ≤ grand_total (score_loop mapped_blocks draw min_hits).2 jackpot
    ∧ 0 ≤ total_cost total_blocks := by
  have h1 : 0 ≤ total_fixed (score_loop mapped_blocks draw min_hits).2 := by
    simp only [total_fixed, prize_table, List.map_cons, List.map_nil, List.sum_cons,
      List.sum_nil]
    positivity
  have h2 : 0 ≤ total_jackpot (score_loop mapped_blocks draw min_hits).2 jackpot :=
    mul_nonneg (Int.natCast_nonneg _) hj
  refine ⟨h1, h2, add_nonneg h1 h2, ?_⟩
  simp only [total_cost, ticket_price]
  positivity

theorem prize_nonneg_witness :
    0 ≤ total_fixed (score_loop [[1,2,3,4,5,6]] [1,2,3,4,5,6] 1).2
    ∧ 0 ≤ total_jackpot (score_loop [[1,2,3,4,5,6]] [1,2,3,4,5,6] 1).2 30000000
    ∧ 0 ≤ grand_total (score_loop [[1,2,3,4,5,6]] [1,2,3,4,5,6] 1).2 30000000
    ∧ 0 ≤ total_cost 1 :=
  prize_nonneg_for_nonneg_jackpot [[1,2,3,4,5,6]] [1,2,3,4,5,6] 1 30000000
    (by decide) 1

/-- Claim C7 (drawn-numbers validation): once the base input is accepted, a
drawn input that does not parse to exactly 6 pairwise-distinct integers
makes the evaluation stop with an error whose result does not depend on
the stored blocks (so no mapping or scoring happens), and a drawn input
that does parse to 6 distinct integers lets the evaluation produce a
result. -/
theorem drawn_validation (user_input draw_input : String)
    (blocks blocks' : List (List Int)) (min_hits : Nat) (jackpot : Int)
    (l : List Int) (hu : parse_int_list user_input = some l) (h6 : 6 ≤ l.length) :
    ((parse_int_list draw_input = none ∨
        ∃ d, parse_int_list draw_input = some d ∧ ¬(d.length = 6 ∧ d.Nodup)) →
      (∃ e, evaluate user_input draw_input blocks min_hits jackpot = Except.error e)
      ∧ evaluate user_input draw_input blocks min_hits jackpot
          = evaluate user_input draw_input blocks' min_hits jackpot)
    ∧ (∀ d, parse_int_list draw_input = some d → d.length = 6 → d.Nodup →
        ∃ out, evaluate user_input draw_input blocks min_hits jackpot
          = Except.ok out) := by
  have hnot : ¬l.length < 6 := by omega
  constructor
  · rintro (hd | ⟨d, hd, hbad⟩)
    · constructor
      · refine ⟨"Invalid drawn format.", ?_⟩
        simp only [evaluate, hu]
        rw [if_neg hnot]
        simp only [hd]
      · simp only [evaluate, hu]
        rw [if_neg hnot, if_neg hnot]
        simp only [hd]
    · have hcond : d.length ≠ 6 ∨ d.dedup.length ≠ 6 := by
        by_contra hc
        push_neg at hc
        exact hbad ⟨hc.1, (dedup_length_eq_iff d).mp (hc.2.trans hc.1.symm)⟩
      constructor
      · refine ⟨"Must be exactly 6 unique drawn numbers.", ?_⟩
        simp only [evaluate, hu]
        rw [if_neg hnot]
        simp only [hd]
        rw [if_pos hcond]
      · simp only [evaluate, hu]
        rw [if_neg hnot, if_neg hnot]
        simp only [hd]
        rw [if_pos hcond, if_pos hcond]
  · intro d hd h6d hnd
    have hcond : ¬(d.length ≠ 6 ∨ d.dedup.length ≠ 6) := by
      push_neg
      exact ⟨h6d, by rw [hnd.dedup, h6d]⟩
    simp only [evaluate, hu, hd, if_neg hnot, if_neg hcond]
    exact ⟨_, rfl⟩

theorem drawn_validation_witness :
    ((∃ e, evaluate "1,2,3,4,5,6" "1,1,2,3,4,5" [[1,2,3,4,5,6]] 1 30000000
        = Except.error e)
      ∧ evaluate "1,2,3,4,5,6" "1,1,2,3,4,5" [[1,2,3,4,5,6]] 1 30000000
          = evaluate "1,2,3,4,5,6" "1,1,2,3,4,5" [] 1 30000000)
    ∧ ∃ out, evaluate "1,2,3,4,5,6" "1,2,3,4,5,6" [[1,2,3,4,5,6]] 1 30000000
        = Except.ok out :=
  ⟨(drawn_validation "1,2,3,4,5,6" "1,1,2,3,4,5" [[1,2,3,4,5,6]] [] 1 30000000
      [1,2,3,4,5,6] (by decide) (by decide)).1
      (Or.inr ⟨[1,1,2,3,4,5], by decide, by decide⟩),
   (drawn_validation "1,2,3,4,5,6" "1,2,3,4,5,6" [[1,2,3,4,5,6]] [] 1 30000000
      [1,2,3,4,5,6] (by decide) (by decide)).2 [1,2,3,4,5,6]
      (by decide) (by decide) (by decide)⟩

/-- Claim C8 (description parsing): parsing a description returns `none`
exactly when the string has no leading decimal digit, and when a
non-empty leading digit run exists it returns its integer value
(so `"8N-3S"` parses to 8). -/
theorem description_parsing (s : String) :
    (get_v_from_description s = none ↔
      ∀ c, s.toList.head? = some c → c.isDigit = false)
    ∧ (∀ ds rest, s.toList = ds ++ rest → ds ≠ [] →
        (∀ c ∈ ds, c.isDigit = true) →
        (∀ c, rest.head? = some c → c.isDigit = false) →
        get_v_from_description s = some (digitsToNat ds)) := by
  constructor
  · unfold get_v_from_description
    cases hls : s.toList with
    | nil => simp
    | cons c t =>
      cases hc : c.isDigit
      · rw [List.takeWhile_cons_of_neg (by simp [hc])]
        refine iff_of_true (by simp) ?_
        intro c' hc'
        simp only [List.head?_cons, Option.some.injEq] at hc'
        rw [← hc']
        exact hc
      · rw [List.takeWhile_cons_of_pos (by simp [hc])]
        refine iff_of_false (by simp) ?_
        intro hall
        have := hall c (by simp)
        rw [hc] at this
        exact Bool.noConfusion this
  · intro ds rest hsplit hne hds hrest
    unfold get_v_from_description
    rw [hsplit, List.takeWhile_append_of_pos hds]
    have hrt : rest.takeWhile Char.isDigit = [] := by
      cases hr : rest with
      | nil => rfl
      | cons r t =>
        have hrd := hrest r (by rw [hr]; rfl)
        exact List.takeWhile_cons_of_neg (by simp [hrd])
    rw [hrt, List.append_nil, if_neg (by simp [hne])]

theorem description_parsing_witness :
    get_v_from_description "8N-3S" = some 8 := by
  have h := (description_parsing "8N-3S").2 ['8'] ['N', '-', '3', 'S']
    (by decide) (by decide) (by decide)
    (by
      intro c hc
      simp only [List.head?_cons, Option.some.injEq] at hc
      rw [← hc]
      decide)
  exact h.trans (by decide)

/-- Claim C9 (negative positions are not rejected by the mapping itself):
`map_user_numbers` returns `none` exactly when some position is greater
than `v` or at most `-v`; a position in `[1-v, 0]` is resolved by Python
negative indexing from the end of the base list (position 0 gives the
last base number), and only the range check of the caller
(`validP`) excludes such positions. -/
theorem negative_position_indexing (u : List Int) (hu : u ≠ []) (blk : List Int) :
    (map_user_numbers u blk = none ↔
      ∃ p ∈ blk, (u.length : Int) < p ∨ p ≤ -(u.length : Int))
    ∧ (∀ p : Int, 1 - (u.length : Int) ≤ p → p ≤ 0 →
        map_user_numbers u [p] = some [u.getD (p - 1 + u.length).toNat 0])
    ∧ map_user_numbers u [0] = some [u.getD (u.length - 1) 0]
    ∧ validP u.length [0] = false := by
  have hlen : 0 < u.length := List.length_pos.mpr hu
  have hone : ∀ p : Int, 1 - (u.length : Int) ≤ p → p ≤ 0 →
      map_user_numbers u [p] = some [u.getD (p - 1 + u.length).toNat 0] := by
    intro p h1 h2
    rw [map_user_numbers, pyIndex_neg u p h1 h2]
    rfl
  refine ⟨map_user_numbers_eq_none_iff u blk, hone, ?_, ?_⟩
  · have h := hone 0 (by omega) (by omega)
    have heq : ((0 : Int) - 1 + (u.length : Int)).toNat = u.length - 1 := by omega
    rw [heq] at h
    exact h
  · simp [validP]

theorem negative_position_witness :
    map_user_numbers [10, 20, 30] [0] = some [30] := by
  have h := (negative_position_indexing [10, 20, 30] (by decide) []).2.2.1
  simpa using h

/-- Claim C10 (block classification is a partition): with non-empty stored
blocks and at least 6 base numbers, every block goes to exactly one of
the mapped or invalid lists, the two lengths sum to the number of
blocks, and both lists keep the original block order. -/
theorem block_classification_partition (u : List Int) (blocks : List (List Int))
    (hv : 6 ≤ u.length) (hne : ∀ b ∈ blocks, b ≠ []) :
    (classify u blocks).1.length + (classify u blocks).2.length = blocks.length
    ∧ (classify u blocks).1
        = (blocks.filter (validP u.length)).map
            (fun b => b.map (fun p => u.getD (p - 1).toNat 0))
    ∧ (classify u blocks).2 = blocks.filter (fun b => !validP u.length b) := by
  rw [classify_eq u blocks hne]
  refine ⟨?_, rfl, rfl⟩
  simp only [List.length_map]
  exact length_filter_partition (validP u.length) blocks

theorem block_classification_witness :
    (classify [10, 20, 30, 40, 50, 60, 70]
        [[8, 1, 2, 3, 4, 5], [1, 2, 3, 4, 5, 6]]).1.length
      + (classify [10, 20, 30, 40, 50, 60, 70]
        [[8, 1, 2, 3, 4, 5], [1, 2, 3, 4, 5, 6]]).2.length = 2 := by
  have h := (block_classification_partition [10, 20, 30, 40, 50, 60, 70]
    [[8, 1, 2, 3, 4, 5], [1, 2, 3, 4, 5, 6]] (by decide)
    (by decide)).1
  simpa using h

end LottoMapper
